import Mathlib

/-!
Formal model of the FlagApp Challenge Rotation & Attempt Engine.

Shallow embedding of the Python/Django source:
  - `backend/flags/models.py`   (DifficultyTierState.select_next_country,
                                 DailyChallenge.get_or_create_today,
                                 DailyChallenge.create_question,
                                 Question.validate_answer)
  - `backend/flags/views.py`    (DailyChallengeAnswerView.post, MAX_DAILY_ATTEMPTS)
  - `backend/users/models.py`   (UserStats.update_daily_streak, add_incorrect_country)
  - `backend/flags/data/country_alternates.py` (get_alternates_for_country)

Database rows become Lean structures, querysets become lists, dates become
integers (day numbers), Python strings become `List Char` (so that all
operations compute inside the kernel), and the random `order_by('?').first()`
pick becomes an explicit choice parameter.  Fallible operations return
`Except`.
-/

deriving instance DecidableEq for Except

namespace FlagApp

/-- Python strings, represented as character lists so that `lower`/`strip`
compute by kernel reduction. -/
abbrev Str := List Char

/-- Python `str.lower()` (ASCII case mapping, which covers every string the
engine compares). -/
def pyLower (s : Str) : Str := s.map Char.toLower

/-- Python `str.strip()`: drop leading and trailing whitespace. -/
def pyStrip (s : Str) : Str :=
  ((s.dropWhile Char.isWhitespace).reverse.dropWhile Char.isWhitespace).reverse

/-- Lexicographic comparison on strings, as used by Python's `sorted`. -/
def strLe : Str → Str → Bool
  | [], _ => true
  | _ :: _, [] => false
  | a :: as, b :: bs => if a = b then strLe as bs else decide (a < b)

/-- Insert into a `strLe`-sorted list (helper for `sortStrs`). -/
def insertStr (x : Str) : List Str → List Str
  | [] => [x]
  | y :: ys => if strLe x y then x :: y :: ys else y :: insertStr x ys

/-- Sort a list of strings ascending, as Python's `sorted` does. -/
def sortStrs : List Str → List Str
  | [] => []
  | x :: xs => insertStr x (sortStrs xs)

/- ## Rotation track (`DifficultyTierState` + `TierShownCountry`) -/

/-- State of one rotation track: the `DifficultyTierState` row for a fixed
`(tier, user)` pair together with its `TierShownCountry` rows (`shown`, the
countries shown in the current cycle, newest first).  The country type is a
parameter: claims about the cycle structure use bare country ids, the calendar
model uses full `Country` records. -/
structure TierState (α : Type) where
  cycleNumber : Nat
  cycleStartDate : Int
  lastSelectionDate : Option Int
  shown : List α
deriving Repr, DecidableEq

/-- Errors that can escape `select_next_country`.  The source has no explicit
error path: when the eligible queryset is empty, `available.order_by('?').first()`
yields `None` and `TierShownCountry.objects.create(tier_state=self, country=None)`
raises a not-null/foreign-key integrity error. -/
inductive SelectError
  | nullCountryInsert
deriving Repr, DecidableEq

/-- The `available` queryset of `select_next_country`:
`tier_countries.exclude(id__in=shown_country_ids)`. -/
def availableOf {α : Type} [DecidableEq α] (eligible : List α) (s : TierState α) :
    List α :=
  eligible.filter (fun c => decide (c ∉ s.shown))

/-- Shallow embedding of `DifficultyTierState.select_next_country`
(`backend/flags/models.py`).  `eligible` is the tier's country queryset (all
countries for tier `default`, otherwise the tier filter), `today` is
`timezone.now().date()`, and `choice` resolves the random pick: the selected
row is `available.get? (choice % available.length)`, an arbitrary member of
`available`, and `none` exactly when `available` is empty (`first()` on an
empty queryset).  Returns the selected country and the updated track state; on
the empty-queryset crash the returned state already carries the cycle reset,
because the source `save()`s the reset before attempting the insert. -/
def select_next_country {α : Type} [DecidableEq α] (eligible : List α)
    (today : Int) (choice : Nat) (s : TierState α) :
    Except SelectError α × TierState α :=
  let available := availableOf eligible s
  if available.isEmpty then
    let s1 : TierState α :=
      { s with shown := [], cycleNumber := s.cycleNumber + 1, cycleStartDate := today }
    match eligible.get? (choice % eligible.length) with
    | none => (Except.error SelectError.nullCountryInsert, s1)
    | some c =>
        (Except.ok c, { s1 with shown := [c], lastSelectionDate := some today })
  else
    match available.get? (choice % available.length) with
    | none => (Except.error SelectError.nullCountryInsert, s)
    | some c =>
        (Except.ok c, { s with shown := c :: s.shown, lastSelectionDate := some today })

/-- A fresh track state as created by `get_or_create` with
`defaults={'cycle_start_date': today}` (`cycle_number` defaults to 1). -/
def freshTierState {α : Type} (today : Int) : TierState α :=
  { cycleNumber := 1, cycleStartDate := today, lastSelectionDate := none, shown := [] }

/-- Run a sequence of `select_next_country` calls; each call supplies its
`(today, choice)` pair.  Returns the final track state and the per-call
results. -/
def runSelections {α : Type} [DecidableEq α] (eligible : List α)
    (calls : List (Int × Nat)) (s : TierState α) :
    TierState α × List (Except SelectError α) :=
  match calls with
  | [] => (s, [])
  | (today, choice) :: rest =>
      let step := select_next_country eligible today choice s
      let tail := runSelections eligible rest step.2
      (tail.1, step.1 :: tail.2)

/- ## Catalog items and questions -/

/-- The fields of a `Country` row that the engine reads: primary key, ISO
code, display name, and the `altSpellings` list of its cached
`raw_api_response`. -/
structure Country where
  id : Nat
  code : Str
  name : Str
  altSpellings : List Str
deriving Repr, DecidableEq

/-- The keys of the JSON `correct_answer` field that `Question.validate_answer`
reads, one field per key/type actually accessed: `answer` (string, text
input), `alternates`, `correct` (multiple choice) and `answer` again read as a
boolean (true/false).  Keys a format never reads are modelled by the defaults. -/
structure CorrectAnswer where
  answer : Str := []
  alternates : List Str := []
  correctOption : Str := []
  answerBool : Bool := false
deriving Repr, DecidableEq

/-- A `Question` row: category, format, question text and the JSON
`correct_answer`. -/
structure Question where
  category : Str
  format : Str
  questionText : Str
  correctAnswer : CorrectAnswer
deriving Repr, DecidableEq

/-- The keys of the user's JSON `answer_data` that validation reads:
`.get("text", "")`, `.get("selected_option")` and `.get("answer")` (the latter
two default to `None`). -/
structure AnswerData where
  text : Str := []
  selectedOption : Option Str := none
  answerBool : Option Bool := none
deriving Repr, DecidableEq

/-- Embedding of `Question._validate_text_input`: lower-case and strip the
submitted text, compare against the lower-cased primary answer and the
lower-cased alternates. -/
def validate_text_input (q : Question) (d : AnswerData) : Bool × Str :=
  let userText := pyStrip (pyLower d.text)
  let correct := pyLower q.correctAnswer.answer
  let alternates := q.correctAnswer.alternates.map pyLower
  (userText == correct || alternates.contains userText,
   "Correct answer: ".toList ++ q.correctAnswer.answer)

/-- Embedding of `Question._validate_multiple_choice`: exact comparison of the
selected option against `correct_answer["correct"]` (a missing option compares
unequal, as Python `None == str` does). -/
def validate_multiple_choice (q : Question) (d : AnswerData) : Bool × Str :=
  ((match d.selectedOption with
    | some o => o == q.correctAnswer.correctOption
    | none => false),
   "Correct answer: ".toList ++ q.correctAnswer.correctOption)

/-- Embedding of `Question._validate_true_false`: boolean comparison against
`correct_answer["answer"]`. -/
def validate_true_false (q : Question) (d : AnswerData) : Bool × Str :=
  ((match d.answerBool with
    | some b => b == q.correctAnswer.answerBool
    | none => false),
   (if q.correctAnswer.answerBool then "The statement is True".toList
    else "The statement is False".toList))

/-- Embedding of `Question.validate_answer`: dispatch on the format string,
falling back to `(False, "Unknown question format")`. -/
def validate_answer (q : Question) (d : AnswerData) : Bool × Str :=
  if q.format = "text_input".toList then validate_text_input q d
  else if q.format = "multiple_choice".toList then validate_multiple_choice q d
  else if q.format = "true_false".toList then validate_true_false q d
  else (false, "Unknown question format".toList)

/-- Embedding of `DailyChallenge.create_question`: always a flag-recognition
text-input question whose `correct_answer` is
`{'answer': country.name, 'alternates': []}` (the source leaves the alternates
empty, with a TODO). -/
def create_question (c : Country) : Question :=
  { category := "flag".toList,
    format := "text_input".toList,
    questionText := "Which country does this flag belong to?".toList,
    correctAnswer := { answer := c.name, alternates := [] } }

/- ## Manual alternates helper (`backend/flags/data/country_alternates.py`) -/

/-- The `MANUAL_ALTERNATES` dict.  Every entry in the source is commented out,
so the dict is empty. -/
def MANUAL_ALTERNATES : List (Str × List Str) := []

/-- Embedding of `get_alternates_for_country`: lower-case the API alternates
and the manual overrides, form their union as a set, drop empty strings, and
return the sorted list. -/
def get_alternates_for_country (country_code : Str)
    (api_alternates : Option (List Str)) : List Str :=
  let fromApi := (api_alternates.getD []).map pyLower
  let manual := (((MANUAL_ALTERNATES.lookup country_code).getD []).map pyLower)
  let unioned :=
    (fromApi ++ manual).foldl (fun acc a => if a ∈ acc then acc else acc ++ [a]) []
  sortStrs (unioned.filter (fun a => decide (a ≠ [])))

/- ## User stats (`backend/users/models.py`) -/

/-- The `UserStats` fields touched by the daily-challenge flow. -/
structure UserStats where
  total_correct : Nat
  current_streak : Nat
  longest_streak : Nat
  last_guess_date : Option Int
  incorrect_countries : List Str
deriving Repr, DecidableEq

/-- A freshly created `UserStats` row (all counters at their defaults). -/
def initUserStats : UserStats :=
  { total_correct := 0, current_streak := 0, longest_streak := 0,
    last_guess_date := none, incorrect_countries := [] }

/-- Embedding of `UserStats.update_daily_streak`.  Note that the source keys
the streak-continuation test on `last_guess_date` (its only date field), which
is updated after every recorded outcome, correct or not. -/
def update_daily_streak (is_correct : Bool) (guess_date : Int) (s : UserStats) :
    UserStats :=
  let s1 :=
    if is_correct then
      let cur :=
        if s.last_guess_date = some (guess_date - 1) then s.current_streak + 1 else 1
      { s with current_streak := cur,
               longest_streak := max s.longest_streak cur,
               total_correct := s.total_correct + 1 }
    else
      { s with current_streak := 0 }
  { s1 with last_guess_date := some guess_date }

/-- Embedding of `UserStats.add_incorrect_country`: append the code unless it
is already present. -/
def add_incorrect_country (country_code : Str) (s : UserStats) : UserStats :=
  if country_code ∈ s.incorrect_countries then s
  else { s with incorrect_countries := s.incorrect_countries ++ [country_code] }

/-- What `DailyChallengeAnswerView` does to `UserStats` when a challenge
completes: `_update_stats_on_correct` on a correct outcome,
`_update_stats_on_failure` (streak update then `add_incorrect_country`) when
the attempts are exhausted. -/
def record_outcome (is_correct : Bool) (date : Int) (country_code : Str)
    (s : UserStats) : UserStats :=
  if is_correct then update_daily_streak true date s
  else add_incorrect_country country_code (update_daily_streak false date s)

/-- Run a sequence of completed-challenge outcomes `(isCorrect, date, code)`
through the source's stats updates. -/
def runStreakCode (tr : List (Bool × Int × Str)) (s : UserStats) : UserStats :=
  match tr with
  | [] => s
  | (b, d, c) :: rest => runStreakCode rest (record_outcome b d c s)

/-- Modelled from the spec (§4.4 StreakTracker): the state the spec describes,
with a dedicated `lastCorrectDate` field and a `missedItemCodes` set. -/
structure SpecStreakState where
  currentStreak : Nat
  longestStreak : Nat
  totalCorrect : Nat
  lastCorrectDate : Option Int
  missedItemCodes : List Str
deriving Repr, DecidableEq

/-- Modelled from the spec (§4.4): the fresh streak state. -/
def initSpecStreak : SpecStreakState :=
  { currentStreak := 0, longestStreak := 0, totalCorrect := 0,
    lastCorrectDate := none, missedItemCodes := [] }

/-- Modelled from the spec (§4.4 StreakTracker `record`): on a correct outcome
increment the streak when `lastCorrectDate = date - 1`, else restart at 1,
update `longestStreak`/`totalCorrect`/`lastCorrectDate`; on an incorrect
outcome zero the streak and add the item's code to the missed set. -/
def specStreakRecord (isCorrect : Bool) (date : Int) (itemCode : Str)
    (s : SpecStreakState) : SpecStreakState :=
  if isCorrect then
    let cur :=
      if s.lastCorrectDate = some (date - 1) then s.currentStreak + 1 else 1
    { s with currentStreak := cur,
             longestStreak := max s.longestStreak cur,
             totalCorrect := s.totalCorrect + 1,
             lastCorrectDate := some date }
  else
    { s with currentStreak := 0,
             missedItemCodes :=
               if itemCode ∈ s.missedItemCodes then s.missedItemCodes
               else s.missedItemCodes ++ [itemCode] }

/-- Run a sequence of outcomes through the spec's streak tracker. -/
def runStreakSpec (tr : List (Bool × Int × Str)) (s : SpecStreakState) :
    SpecStreakState :=
  match tr with
  | [] => s
  | (b, d, c) :: rest => runStreakSpec rest (specStreakRecord b d c s)

/- ## Attempt ledger (`DailyChallengeAnswerView.post`) -/

/-- The cap on daily-challenge attempts (`views.py`). -/
def MAX_DAILY_ATTEMPTS : Nat := 3

/-- A `UserAnswer` row for a fixed `(user, question)` pair. -/
structure UserAnswer where
  attempt_number : Nat
  is_correct : Bool
  answer_data : AnswerData
  explanation : Str
deriving Repr, DecidableEq

/-- The per-`(user, question)` state the answer view reads and writes: the
user's `UserAnswer` rows (newest first, as `order_by('-answered_at')` yields)
and the user's `UserStats` row. -/
structure LedgerState where
  answers : List UserAnswer
  stats : UserStats
deriving Repr, DecidableEq

/-- A user who has not attempted the question yet. -/
def initLedger : LedgerState := { answers := [], stats := initUserStats }

/-- The 400-responses of the answer view. -/
inductive SubmitError
  | alreadyAnsweredCorrectly
  | attemptsExhausted
deriving Repr, DecidableEq

/-- The JSON body of a successful answer submission: `is_correct`,
`explanation`, `attempts_remaining`, and `correct_answer` (present only when
the challenge is completed). -/
structure SubmitResponse where
  is_correct : Bool
  explanation : Str
  attempts_remaining : Nat
  correct_answer : Option CorrectAnswer
deriving Repr, DecidableEq

/-- Embedding of the post-validation core of `DailyChallengeAnswerView.post`
for a fixed `(user, question)` pair: guard on a prior correct answer, guard on
the attempt cap, judge the answer, create the `UserAnswer` row, update stats on
completion, and build the response, revealing `correct_answer` only when the
challenge is completed.  `country_code` is `challenge.country.code`, `today` is
`timezone.now().date()`. -/
def submit_answer (q : Question) (country_code : Str) (today : Int)
    (d : AnswerData) (st : LedgerState) :
    Except SubmitError SubmitResponse × LedgerState :=
  let attempts_used := st.answers.length
  let has_correct := st.answers.any (fun a => a.is_correct)
  if has_correct then (Except.error SubmitError.alreadyAnsweredCorrectly, st)
  else if MAX_DAILY_ATTEMPTS ≤ attempts_used then
    (Except.error SubmitError.attemptsExhausted, st)
  else
    let v := validate_answer q d
    let attempt_number := attempts_used + 1
    let row : UserAnswer :=
      { attempt_number := attempt_number, is_correct := v.1,
        answer_data := d, explanation := v.2 }
    let stats1 :=
      if v.1 then update_daily_streak true today st.stats
      else if MAX_DAILY_ATTEMPTS ≤ attempt_number then
        add_incorrect_country country_code (update_daily_streak false today st.stats)
      else st.stats
    let attempts_remaining := MAX_DAILY_ATTEMPTS - attempt_number
    let is_completed := v.1 || decide (attempts_remaining = 0)
    (Except.ok
      { is_correct := v.1, explanation := v.2,
        attempts_remaining := attempts_remaining,
        correct_answer := if is_completed then some q.correctAnswer else none },
     { answers := row :: st.answers, stats := stats1 })

/-- Run a sequence of submissions `(today, answer_data)` against one question. -/
def run_submits (q : Question) (country_code : Str)
    (inputs : List (Int × AnswerData)) (st : LedgerState) : LedgerState :=
  match inputs with
  | [] => st
  | (today, d) :: rest =>
      run_submits q country_code rest (submit_answer q country_code today d st).2

/-- The gapless descending list `[n, n-1, ..., 1]` of attempt numbers a ledger
with `n` rows (newest first) must carry. -/
def descNumbers : Nat → List Nat
  | 0 => []
  | n + 1 => (n + 1) :: descNumbers n

/- ## Challenge calendar (`DailyChallenge.get_or_create_today`) -/

/-- A `DailyChallenge` row. -/
structure Challenge where
  date : Int
  country : Country
  selection_algorithm_version : Str
deriving Repr, DecidableEq

/-- Failures of `get_or_create_today`.  `selectFailed` propagates a crash of
`select_next_country`; `duplicateDateInsert` is the uncaught database
uniqueness error raised by `cls.objects.create(date=today, ...)` when a row
for `today` appeared after the lookup — the source has no handler for it. -/
inductive GetOrCreateError
  | selectFailed (e : SelectError)
  | duplicateDateInsert
deriving Repr, DecidableEq

/-- The persistent state `get_or_create_today` touches: the `DailyChallenge`
table and the global `(tier='default', user=None)` track (absent until first
created). -/
structure CalendarDb where
  challenges : List Challenge
  tier : Option (TierState Country)
deriving Repr, DecidableEq

/-- Embedding of `DailyChallenge.get_or_create_today`.  `countries` is the
country catalog, `choice` resolves the random pick, and `raceInsert` is the
row a concurrent caller commits between this call's lookup and its create
(`none` when the call runs alone).  Steps, as in the source: (1) look up
today's row and return it with `created = False` if present; (2) get-or-create
the default tier state and select a country; (3) `objects.create` today's row —
modelled by a uniqueness check against the table as it stands at insert time,
whose violation surfaces as an error because the source does not catch it;
(4) create the question (derived from the returned challenge, not stored
here). -/
def get_or_create_today (countries : List Country) (choice : Nat) (today : Int)
    (raceInsert : Option Challenge) (db : CalendarDb) :
    Except GetOrCreateError (Challenge × Bool) × CalendarDb :=
  match db.challenges.find? (fun ch => decide (ch.date = today)) with
  | some ch => (Except.ok (ch, false), db)
  | none =>
      let tier0 := db.tier.getD (freshTierState today)
      let sel := select_next_country countries today choice tier0
      match sel.1 with
      | Except.error e =>
          (Except.error (GetOrCreateError.selectFailed e),
           { db with tier := some sel.2 })
      | Except.ok c =>
          let table1 := db.challenges ++ (raceInsert.map (fun r => [r])).getD []
          if table1.any (fun ch => decide (ch.date = today)) then
            (Except.error GetOrCreateError.duplicateDateInsert,
             { challenges := table1, tier := some sel.2 })
          else
            let ch : Challenge :=
              { date := today, country := c,
                selection_algorithm_version := "v1_tier_random".toList }
            (Except.ok (ch, true),
             { challenges := table1 ++ [ch], tier := some sel.2 })

/- ## Helper lemmas about the rotation track -/

/-- One `select_next_country` call on a nonempty eligible set always succeeds;
it resets the cycle (incrementing `cycleNumber` by exactly 1) precisely when
`available` is empty, and otherwise returns a country not yet shown this cycle
and records it. -/
theorem select_next_country_step {α : Type} [DecidableEq α] (eligible : List α)
    (hne : eligible ≠ []) (today : Int) (choice : Nat) (s : TierState α) :
    ∃ c, (select_next_country eligible today choice s).1 = Except.ok c ∧ c ∈ eligible ∧
      (availableOf eligible s ≠ [] →
        c ∉ s.shown ∧
        (select_next_country eligible today choice s).2.shown = c :: s.shown ∧
        (select_next_country eligible today choice s).2.cycleNumber = s.cycleNumber) ∧
      (availableOf eligible s = [] →
        (select_next_country eligible today choice s).2.shown = [c] ∧
        (select_next_country eligible today choice s).2.cycleNumber = s.cycleNumber + 1 ∧
        (select_next_country eligible today choice s).2.cycleStartDate = today) := by
  by_cases h : availableOf eligible s = []
  · have hlen : 0 < eligible.length := List.length_pos.mpr hne
    have hlt : choice % eligible.length < eligible.length := Nat.mod_lt _ hlen
    obtain ⟨c0, hget⟩ : ∃ c0, eligible.get? (choice % eligible.length) = some c0 :=
      ⟨_, List.get?_eq_get hlt⟩
    have hmem : c0 ∈ eligible := List.get?_mem hget
    have heq : select_next_country eligible today choice s =
        (Except.ok c0,
         { s with shown := [c0], cycleNumber := s.cycleNumber + 1,
                  cycleStartDate := today, lastSelectionDate := some today }) := by
      simp only [select_next_country, h, List.isEmpty_nil, if_true, hget]
    refine ⟨c0, by rw [heq], hmem, fun hcon => absurd h hcon, fun _ => ?_⟩
    rw [heq]
    exact ⟨rfl, rfl, rfl⟩
  · have hemp : (availableOf eligible s).isEmpty = false := by
      cases hav : availableOf eligible s with
      | nil => exact absurd hav h
      | cons x xs => simp [hav]
    have hlen : 0 < (availableOf eligible s).length := List.length_pos.mpr h
    have hlt : choice % (availableOf eligible s).length < (availableOf eligible s).length :=
      Nat.mod_lt _ hlen
    obtain ⟨c0, hget⟩ : ∃ c0,
        (availableOf eligible s).get? (choice % (availableOf eligible s).length) = some c0 :=
      ⟨_, List.get?_eq_get hlt⟩
    have hmem : c0 ∈ availableOf eligible s := List.get?_mem hget
    have hfil := List.mem_filter.mp hmem
    have heq : select_next_country eligible today choice s =
        (Except.ok c0, { s with shown := c0 :: s.shown, lastSelectionDate := some today }) := by
      simp only [select_next_country, hemp, Bool.false_eq_true, if_false, hget]
    refine ⟨c0, by rw [heq], hfil.1, fun _ => ?_, fun hcon => absurd hcon h⟩
    rw [heq]
    exact ⟨of_decide_eq_true hfil.2, rfl, rfl⟩

/-- Invariant of a run of `select_next_country` calls that stays inside one
cycle: while the number of calls still fits in the eligible set, every call
succeeds, no reset occurs, and the shown list accumulates the (distinct)
returned countries. -/
theorem runSelections_inv {α : Type} [DecidableEq α] (eligible : List α)
    (hnd : eligible.Nodup) (calls : List (Int × Nat)) :
    ∀ (s : TierState α), s.shown.Nodup → (∀ x ∈ s.shown, x ∈ eligible) →
      calls.length + s.shown.length = eligible.length →
      ∃ cs : List α,
        (runSelections eligible calls s).2 = cs.map Except.ok ∧
        (runSelections eligible calls s).1.shown = cs.reverse ++ s.shown ∧
        (runSelections eligible calls s).1.cycleNumber = s.cycleNumber ∧
        (runSelections eligible calls s).1.shown.Nodup ∧
        (∀ x ∈ (runSelections eligible calls s).1.shown, x ∈ eligible) := by
  induction calls with
  | nil =>
      intro s h1 h2 h3
      exact ⟨[], rfl, rfl, rfl, h1, h2⟩
  | cons hd rest ih =>
      intro s h1 h2 h3
      obtain ⟨t, ch⟩ := hd
      have hlt : s.shown.length < eligible.length := by
        simp only [List.length_cons] at h3
        omega
      have havail : availableOf eligible s ≠ [] := by
        intro hav
        have hsub : eligible ⊆ s.shown := by
          intro x hx
          by_contra hxs
          have hxmem : x ∈ availableOf eligible s :=
            List.mem_filter.mpr ⟨hx, decide_eq_true hxs⟩
          rw [hav] at hxmem
          exact absurd hxmem (List.not_mem_nil x)
        have hle := (hnd.subperm hsub).length_le
        omega
      have hne : eligible ≠ [] := by
        intro hcon
        rw [hcon] at hlt
        simp at hlt
      obtain ⟨c, hok, hmem, hstep, _⟩ := select_next_country_step eligible hne t ch s
      obtain ⟨hnotin, hshown, hcyc⟩ := hstep havail
      have h1' : (select_next_country eligible t ch s).2.shown.Nodup := by
        rw [hshown]
        exact List.nodup_cons.mpr ⟨hnotin, h1⟩
      have h2' : ∀ x ∈ (select_next_country eligible t ch s).2.shown, x ∈ eligible := by
        rw [hshown]
        intro x hx
        rcases List.mem_cons.mp hx with hx | hx
        · exact hx ▸ hmem
        · exact h2 x hx
      have h3' : rest.length + (select_next_country eligible t ch s).2.shown.length =
          eligible.length := by
        rw [hshown]
        simp only [List.length_cons, List.length_cons] at h3 ⊢
        omega
      obtain ⟨cs, hout, hsh, hcy, hn, hsube⟩ := ih _ h1' h2' h3'
      refine ⟨c :: cs, ?_, ?_, ?_, ?_, ?_⟩
      · show (select_next_country eligible t ch s).1 ::
          (runSelections eligible rest (select_next_country eligible t ch s).2).2 =
          (c :: cs).map Except.ok
        rw [hok, hout]
        rfl
      · show (runSelections eligible rest (select_next_country eligible t ch s).2).1.shown =
          (c :: cs).reverse ++ s.shown
        rw [hsh, hshown]
        simp
      · show (runSelections eligible rest (select_next_country eligible t ch s).2).1.cycleNumber =
          s.cycleNumber
        rw [hcy, hcyc]
      · exact hn
      · exact hsube

/-- Every run returns one result per call. -/
theorem runSelections_output_length {α : Type} [DecidableEq α] (eligible : List α)
    (calls : List (Int × Nat)) :
    ∀ s : TierState α, (runSelections eligible calls s).2.length = calls.length := by
  induction calls with
  | nil => intro s; rfl
  | cons hd rest ih =>
      intro s
      obtain ⟨t, ch⟩ := hd
      show ((select_next_country eligible t ch s).1 ::
        (runSelections eligible rest (select_next_country eligible t ch s).2).2).length =
        rest.length + 1
      simp [ih]

/- ## C1: rotation no-repeat and cycle reset -/

/-- C1: For every rotation track with a nonempty, duplicate-free eligible set:
(step facts) every `select_next_country` call succeeds and returns an eligible
country; when `available` is nonempty there is no reset (`cycleNumber`
unchanged) and the returned country was not yet shown this cycle (no country
is returned twice within one cycle) and is recorded; a reset occurs exactly
when `available` is empty, incrementing `cycleNumber` by exactly 1 and
clearing the shown rows down to the fresh selection.  (trace facts) From a
fresh track, `eligible.length` calls return every eligible country exactly
once (a permutation, so each is returned once before any repeat) with no
reset, and the next call performs exactly one reset, taking `cycleNumber`
from 1 to 2. -/
theorem rotation_no_repeat_and_cycle_reset {α : Type} [DecidableEq α]
    (eligible : List α) (hne : eligible ≠ []) (hnd : eligible.Nodup) :
    (∀ (s : TierState α) (today : Int) (choice : Nat),
      ∃ c, (select_next_country eligible today choice s).1 = Except.ok c ∧ c ∈ eligible ∧
        (availableOf eligible s ≠ [] →
          c ∉ s.shown ∧
          (select_next_country eligible today choice s).2.shown = c :: s.shown ∧
          (select_next_country eligible today choice s).2.cycleNumber = s.cycleNumber) ∧
        (availableOf eligible s = [] →
          (select_next_country eligible today choice s).2.shown = [c] ∧
          (select_next_country eligible today choice s).2.cycleNumber = s.cycleNumber + 1)) ∧
    (∀ calls : List (Int × Nat), calls.length = eligible.length →
      ∃ cs : List α,
        (runSelections eligible calls (freshTierState 0)).2 = cs.map Except.ok ∧
        cs.Perm eligible ∧
        (runSelections eligible calls (freshTierState 0)).1.cycleNumber = 1 ∧
        (∀ (today : Int) (choice : Nat),
          (select_next_country eligible today choice
            (runSelections eligible calls (freshTierState 0)).1).2.cycleNumber = 2)) := by
  constructor
  · intro s today choice
    obtain ⟨c, hok, hmem, hstep, hres⟩ := select_next_country_step eligible hne today choice s
    exact ⟨c, hok, hmem, hstep, fun h => ⟨(hres h).1, (hres h).2.1⟩⟩
  · intro calls hlen
    have h0 : calls.length + (freshTierState (α := α) 0).shown.length = eligible.length := by
      simpa [freshTierState] using hlen
    obtain ⟨cs, hout, hsh, hcy, hn, hsube⟩ :=
      runSelections_inv eligible hnd calls (freshTierState 0)
        (by simp [freshTierState]) (by simp [freshTierState]) h0
    have hlcs : cs.length = calls.length := by
      have h := runSelections_output_length eligible calls (freshTierState (α := α) 0)
      rw [hout] at h
      simpa using h
    have hshlen : (runSelections eligible calls (freshTierState (α := α) 0)).1.shown =
        cs.reverse := by
      simpa [freshTierState] using hsh
    have hperm : (runSelections eligible calls (freshTierState (α := α) 0)).1.shown.Perm
        eligible := by
      refine (List.Nodup.subperm hn ?_).perm_of_length_le ?_
      · intro x hx
        exact hsube x hx
      · rw [hshlen]
        simp [hlcs, hlen]
    refine ⟨cs, hout, ?_, by simpa [freshTierState] using hcy, ?_⟩
    · have h1 : cs.Perm cs.reverse := (List.reverse_perm cs).symm
      have h2 : cs.reverse.Perm eligible := hshlen ▸ hperm
      exact h1.trans h2
    · intro today choice
      have hav : availableOf eligible
          (runSelections eligible calls (freshTierState (α := α) 0)).1 = [] := by
        apply List.filter_eq_nil_iff.mpr
        intro a ha
        have hmem : a ∈ (runSelections eligible calls (freshTierState (α := α) 0)).1.shown :=
          hperm.symm.subset ha
        simp [hmem]
      obtain ⟨c, _, _, _, hres⟩ := select_next_country_step eligible hne today choice
        (runSelections eligible calls (freshTierState (α := α) 0)).1
      rw [(hres hav).2.1]
      rw [show (runSelections eligible calls (freshTierState (α := α) 0)).1.cycleNumber = 1
        from by simpa [freshTierState] using hcy]

/-- Witness for C1 at the concrete eligible set `[0, 1]`: two calls from a
fresh track keep `cycleNumber` at 1 while exhausting the set. -/
theorem rotation_no_repeat_and_cycle_reset_witness :
    (runSelections [0, 1] [(0, 0), (0, 1)] (freshTierState (α := Nat) 0)).1.cycleNumber = 1 := by
  obtain ⟨cs, h1, h2, h3, h4⟩ :=
    (rotation_no_repeat_and_cycle_reset [0, 1] (by decide) (by decide)).2
      [(0, 0), (0, 1)] (by decide)
  exact h3

/- ## C7: empty eligible set (code-bug evidence) -/

/-- C7 evidence: with an empty eligible set (e.g. a tier label no country
carries), `select_next_country` does not surface a `NoEligibleItems` error
with the track untouched — no such error exists in the source.  Instead the
emptiness of `available` triggers the reset branch, which deletes the track's
`TierShownCountry` rows, increments `cycle_number` (here 3 → 4), sets
`cycle_start_date` and `save()`s, and only then crashes trying to insert a
`TierShownCountry` with `country=None`. -/
theorem empty_eligible_set_resets_and_crashes :
    select_next_country ([] : List Nat) 5 0
        { cycleNumber := 3, cycleStartDate := 0, lastSelectionDate := none, shown := [7] } =
      (Except.error SelectError.nullCountryInsert,
       { cycleNumber := 4, cycleStartDate := 5, lastSelectionDate := none, shown := [] }) := by
  decide

/- ## C8: question alternates (code-bug evidence) -/

/-- The country the repository's own test
`test_create_question_includes_alternates` builds (USA with API alternate
spellings). -/
def usaCountry : Country :=
  { id := 1, code := "USA".toList, name := "United States".toList,
    altSpellings := ["US".toList, "USA".toList, "United States of America".toList] }

/-- C8 evidence: `create_question` stores an empty alternates list (the source
hardcodes `'alternates': []` with a TODO), even though the repository ships
`get_alternates_for_country`, which on the same catalog data yields the
lower-cased, deduplicated, sorted, nonempty union the claim (and the
repository's own test) expects.  In particular `"usa"` is absent from the
question's accepted-answer set but present in the merged alternates. -/
theorem create_question_omits_alternates :
    (create_question usaCountry).correctAnswer.alternates = [] ∧
    (create_question usaCountry).correctAnswer.answer = "United States".toList ∧
    get_alternates_for_country usaCountry.code (some usaCountry.altSpellings) =
      ["united states of america".toList, "us".toList, "usa".toList] ∧
    "usa".toList ∉ (create_question usaCountry).correctAnswer.alternates ∧
    "usa".toList ∈ get_alternates_for_country usaCountry.code (some usaCountry.altSpellings) := by
  decide

/- ## C2: once-per-day materialization -/

/-- A one-country catalog for concrete calendar scenarios. -/
def fraCountry : Country :=
  { id := 2, code := "FRA".toList, name := "France".toList, altSpellings := [] }

/-- The challenge row for day 0 as a concurrent caller would commit it. -/
def concurrentChallenge : Challenge :=
  { date := 0, country := fraCountry, selection_algorithm_version := "v1_tier_random".toList }

/-- C2 counterexample: when a concurrent caller creates today's row between
the lookup and the create, the call does NOT fall back to returning the
existing row — the uncaught uniqueness violation surfaces as an error. -/
theorem get_or_create_race_fails_instead_of_recovering :
    (get_or_create_today [fraCountry] 0 0 (some concurrentChallenge)
        { challenges := [], tier := none }).1 =
      Except.error GetOrCreateError.duplicateDateInsert ∧
    (get_or_create_today [fraCountry] 0 0 (some concurrentChallenge)
        { challenges := [], tier := none }).1 ≠
      Except.ok (concurrentChallenge, false) := by
  decide

/-- Appending a challenge whose date is fresh preserves per-date uniqueness. -/
theorem nodup_dates_concat (l : List Challenge) (x : Challenge)
    (h1 : (l.map Challenge.date).Nodup) (h2 : x.date ∉ l.map Challenge.date) :
    ((l ++ [x]).map Challenge.date).Nodup := by
  rw [List.map_append, List.map_cons, List.map_nil, List.nodup_append]
  exact ⟨h1, List.nodup_singleton _, fun a ha hb => h2 ((List.mem_singleton.mp hb) ▸ ha)⟩

/-- C2 (amended): if today's row exists at lookup time it is returned with
`wasCreated = false` and nothing changes; if a concurrent caller commits
today's row between the lookup and the create, the create's uniqueness
violation is NOT caught — the call fails with `duplicateDateInsert` instead of
falling back to the existing row, though the conflicting insert is refused; and
in every case the table keeps at most one challenge row per date (dates stay
duplicate-free). -/
theorem get_or_create_today_unique_per_date (countries : List Country) (choice : Nat)
    (today : Int) (raceInsert : Option Challenge) (db : CalendarDb) :
    (∀ ch, db.challenges.find? (fun c => decide (c.date = today)) = some ch →
      get_or_create_today countries choice today raceInsert db = (Except.ok (ch, false), db)) ∧
    (db.challenges.find? (fun c => decide (c.date = today)) = none →
      countries ≠ [] →
      ∀ r, raceInsert = some r → r.date = today →
        (get_or_create_today countries choice today raceInsert db).1 =
          Except.error GetOrCreateError.duplicateDateInsert ∧
        (get_or_create_today countries choice today raceInsert db).2.challenges =
          db.challenges ++ [r]) ∧
    ((db.challenges.map Challenge.date).Nodup →
      (∀ r, raceInsert = some r → r.date ∉ db.challenges.map Challenge.date) →
      ((get_or_create_today countries choice today raceInsert db).2.challenges.map
        Challenge.date).Nodup) := by
  refine ⟨?_, ?_, ?_⟩
  · intro ch hfind
    simp only [get_or_create_today, hfind]
  · intro hfind hcne r hr hrdate
    subst hr
    obtain ⟨c, hok, -, -, -⟩ := select_next_country_step countries hcne today choice
      (db.tier.getD (freshTierState today))
    have hany : (db.challenges ++ [r]).any (fun ch => decide (ch.date = today)) = true := by
      apply List.any_eq_true.mpr
      exact ⟨r, by simp, by simp [hrdate]⟩
    have heq : get_or_create_today countries choice today (some r) db =
        (Except.error GetOrCreateError.duplicateDateInsert,
         { challenges := db.challenges ++ [r],
           tier := some (select_next_country countries today choice
             (db.tier.getD (freshTierState today))).2 }) := by
      simp only [get_or_create_today, hfind, hok, Option.map_some', Option.getD_some, hany,
        if_true]
    rw [heq]
    exact ⟨rfl, rfl⟩
  · intro hnd hrace
    cases hfind : db.challenges.find? (fun c => decide (c.date = today)) with
    | some ch =>
        simp only [get_or_create_today, hfind]
        exact hnd
    | none =>
        rcases hsel : (select_next_country countries today choice
            (db.tier.getD (freshTierState today))).1 with e | c
        · simp only [get_or_create_today, hfind, hsel]
          exact hnd
        · have hnd1 : ((db.challenges ++ (raceInsert.map (fun r => [r])).getD []).map
              Challenge.date).Nodup := by
            cases hri : raceInsert with
            | none => simpa using hnd
            | some r =>
                simp only [Option.map_some', Option.getD_some]
                exact nodup_dates_concat db.challenges r hnd (hrace r hri)
          cases hany : (db.challenges ++ (raceInsert.map (fun r => [r])).getD []).any
              (fun ch => decide (ch.date = today)) with
          | true =>
              simp only [get_or_create_today, hfind, hsel, hany, if_true]
              exact hnd1
          | false =>
              simp only [get_or_create_today, hfind, hsel, hany, Bool.false_eq_true, if_false]
              apply nodup_dates_concat _ _ hnd1
              intro hmem
              obtain ⟨x, hx, hxd⟩ := List.mem_map.mp hmem
              have hfx := List.any_eq_false.mp hany x hx
              simp only [decide_eq_true_eq] at hfx
              exact hfx hxd

/-- Witness for C2 (amended) at concrete inputs: with today's row already in
the table the call returns it unchanged with `wasCreated = false`; with a
concurrent insert between lookup and create, the call errors and adds no
second row for the date. -/
theorem get_or_create_today_unique_per_date_witness :
    (get_or_create_today [fraCountry] 0 0 none
        { challenges := [concurrentChallenge], tier := none }) =
      (Except.ok (concurrentChallenge, false),
       { challenges := [concurrentChallenge], tier := none }) ∧
    (get_or_create_today [fraCountry] 0 0 (some concurrentChallenge)
        { challenges := [], tier := none }).2.challenges = [concurrentChallenge] := by
  constructor
  · exact (get_or_create_today_unique_per_date [fraCountry] 0 0 none
      { challenges := [concurrentChallenge], tier := none }).1 concurrentChallenge (by decide)
  · have h := (get_or_create_today_unique_per_date [fraCountry] 0 0
      (some concurrentChallenge) { challenges := [], tier := none }).2.1 (by decide)
      (by decide) concurrentChallenge rfl (by decide)
    simpa using h.2

/- ## Helper lemmas about the answer submission flow -/

/-- A submission with a prior correct answer is rejected and changes nothing. -/
theorem submit_answer_has_correct (q : Question) (cc : Str) (today : Int)
    (d : AnswerData) (st : LedgerState)
    (h : st.answers.any (fun a => a.is_correct) = true) :
    submit_answer q cc today d st = (Except.error SubmitError.alreadyAnsweredCorrectly, st) := by
  simp only [submit_answer, h, if_true]

/-- A submission at or past the attempt cap (with no prior correct answer) is
rejected and changes nothing. -/
theorem submit_answer_exhausted (q : Question) (cc : Str) (today : Int)
    (d : AnswerData) (st : LedgerState)
    (h1 : st.answers.any (fun a => a.is_correct) = false)
    (h2 : MAX_DAILY_ATTEMPTS ≤ st.answers.length) :
    submit_answer q cc today d st = (Except.error SubmitError.attemptsExhausted, st) := by
  simp only [submit_answer, h1, Bool.false_eq_true, if_false, h2, if_true]

/-- Characterization of an accepted submission: the full response and the full
state update. -/
theorem submit_answer_accepted (q : Question) (cc : Str) (today : Int)
    (d : AnswerData) (st : LedgerState)
    (h1 : st.answers.any (fun a => a.is_correct) = false)
    (h2 : st.answers.length < MAX_DAILY_ATTEMPTS) :
    submit_answer q cc today d st =
      (Except.ok
        { is_correct := (validate_answer q d).1,
          explanation := (validate_answer q d).2,
          attempts_remaining := MAX_DAILY_ATTEMPTS - (st.answers.length + 1),
          correct_answer :=
            if (validate_answer q d).1 ||
               decide (MAX_DAILY_ATTEMPTS - (st.answers.length + 1) = 0)
            then some q.correctAnswer else none },
       { answers :=
           { attempt_number := st.answers.length + 1,
             is_correct := (validate_answer q d).1,
             answer_data := d,
             explanation := (validate_answer q d).2 } :: st.answers,
         stats :=
           if (validate_answer q d).1 then update_daily_streak true today st.stats
           else if MAX_DAILY_ATTEMPTS ≤ st.answers.length + 1 then
             add_incorrect_country cc (update_daily_streak false today st.stats)
           else st.stats }) := by
  have h2' : ¬ MAX_DAILY_ATTEMPTS ≤ st.answers.length := by omega
  simp only [submit_answer, h1, Bool.false_eq_true, if_false, h2', if_true]

/- ## Concrete fixtures for witnesses -/

/-- The accepted-answer key of the spec's running example: primary answer
France with alternate `fra`. -/
def franceKey : CorrectAnswer :=
  { answer := "France".toList, alternates := ["fra".toList] }

/-- A text-input question carrying a given accepted-answer key (the shape
`create_question` produces). -/
def textInputQuestion (key : CorrectAnswer) : Question :=
  { category := "flag".toList, format := "text_input".toList,
    questionText := "Which country does this flag belong to?".toList,
    correctAnswer := key }

/-- The France flag question of the spec's running example. -/
def frQuestion : Question := textInputQuestion franceKey

/-- An incorrect submission payload against `frQuestion`. -/
def gerAnswer : AnswerData := { text := "germany".toList }

/-- A ledger whose user has already answered correctly (terminal `Solved`). -/
def ledgerSolved : LedgerState :=
  { answers := [{ attempt_number := 1, is_correct := true, answer_data := gerAnswer,
                  explanation := [] }],
    stats := initUserStats }

/-- A ledger with three incorrect attempts (terminal `Locked`). -/
def ledgerLocked : LedgerState :=
  { answers :=
      [{ attempt_number := 3, is_correct := false, answer_data := gerAnswer, explanation := [] },
       { attempt_number := 2, is_correct := false, answer_data := gerAnswer, explanation := [] },
       { attempt_number := 1, is_correct := false, answer_data := gerAnswer, explanation := [] }],
    stats := initUserStats }

/- ## C3: submission guards -/

/-- C3: whenever some prior attempt is correct the submission fails with
`AlreadyAnsweredCorrectly`, and whenever (with no prior correct answer) the
prior attempt count is at least `MAX_DAILY_ATTEMPTS = 3` it fails with
`AttemptsExhausted`; in both cases the returned state is exactly the input
state — no `UserAnswer` row is created and no user stats are mutated.  (When
both conditions hold the first guard wins, matching the spec's step order.)
In particular a 4th submission after 3 incorrect ones fails with
`AttemptsExhausted` and creates no 4th row (see the witness). -/
theorem submit_guards_reject_without_mutation (q : Question) (cc : Str) (today : Int)
    (d : AnswerData) (st : LedgerState) :
    (st.answers.any (fun a => a.is_correct) = true →
      submit_answer q cc today d st = (Except.error SubmitError.alreadyAnsweredCorrectly, st)) ∧
    (st.answers.any (fun a => a.is_correct) = false →
      MAX_DAILY_ATTEMPTS ≤ st.answers.length →
      submit_answer q cc today d st = (Except.error SubmitError.attemptsExhausted, st)) :=
  ⟨fun h => submit_answer_has_correct q cc today d st h,
   fun h1 h2 => submit_answer_exhausted q cc today d st h1 h2⟩

/-- Witness for C3: a solved ledger rejects with `AlreadyAnsweredCorrectly`,
and a ledger with three incorrect attempts rejects the 4th submission with
`AttemptsExhausted`; both leave the ledger (rows and stats) untouched. -/
theorem submit_guards_reject_without_mutation_witness :
    submit_answer frQuestion "FRA".toList 0 gerAnswer ledgerSolved =
      (Except.error SubmitError.alreadyAnsweredCorrectly, ledgerSolved) ∧
    submit_answer frQuestion "FRA".toList 0 gerAnswer ledgerLocked =
      (Except.error SubmitError.attemptsExhausted, ledgerLocked) :=
  ⟨(submit_guards_reject_without_mutation frQuestion "FRA".toList 0 gerAnswer
      ledgerSolved).1 (by decide),
   (submit_guards_reject_without_mutation frQuestion "FRA".toList 0 gerAnswer
      ledgerLocked).2 (by decide) (by decide)⟩

/- ## C4: answer reveal timing -/

/-- C4: for every submission that passes both guards (i.e. whose result is a
successful response), the `correct_answer` value is present in the response
iff the submission was judged correct or `attempts_remaining` is 0 after this
submission; and when present it is exactly the question's accepted-answer
set. -/
theorem correct_answer_revealed_iff_completed (q : Question) (cc : Str) (today : Int)
    (d : AnswerData) (st : LedgerState) (resp : SubmitResponse)
    (hok : (submit_answer q cc today d st).1 = Except.ok resp) :
    (resp.correct_answer ≠ none ↔ (resp.is_correct = true ∨ resp.attempts_remaining = 0)) ∧
    (resp.correct_answer = none ∨ resp.correct_answer = some q.correctAnswer) := by
  by_cases h1 : st.answers.any (fun a => a.is_correct) = true
  · rw [submit_answer_has_correct q cc today d st h1] at hok
    exact absurd hok (by simp)
  · have h1' : st.answers.any (fun a => a.is_correct) = false := by
      simpa using h1
    by_cases h2 : MAX_DAILY_ATTEMPTS ≤ st.answers.length
    · rw [submit_answer_exhausted q cc today d st h1' h2] at hok
      exact absurd hok (by simp)
    · have h2' : st.answers.length < MAX_DAILY_ATTEMPTS := by omega
      rw [submit_answer_accepted q cc today d st h1' h2'] at hok
      have hresp := (Except.ok.injEq _ _).mp hok
      subst hresp
      by_cases hv : (validate_answer q d).1 = true
      · simp [hv]
      · have hv' : (validate_answer q d).1 = false := by simpa using hv
        by_cases hr : MAX_DAILY_ATTEMPTS - (st.answers.length + 1) = 0
        · simp [hv', hr]
        · simp [hv', hr]

/-- Witness for C4 at a concrete accepted submission: an incorrect first
attempt leaves two attempts and withholds the accepted-answer set. -/
theorem correct_answer_revealed_iff_completed_witness :
    (({ is_correct := false, explanation := "Correct answer: France".toList,
        attempts_remaining := 2, correct_answer := none } : SubmitResponse).correct_answer ≠
          none ↔
        (({ is_correct := false, explanation := "Correct answer: France".toList,
            attempts_remaining := 2, correct_answer := none } : SubmitResponse).is_correct =
            true ∨
          ({ is_correct := false, explanation := "Correct answer: France".toList,
             attempts_remaining := 2, correct_answer := none } : SubmitResponse).attempts_remaining =
            0)) ∧
    (({ is_correct := false, explanation := "Correct answer: France".toList,
        attempts_remaining := 2, correct_answer := none } : SubmitResponse).correct_answer =
          none ∨
      ({ is_correct := false, explanation := "Correct answer: France".toList,
         attempts_remaining := 2, correct_answer := none } : SubmitResponse).correct_answer =
        some frQuestion.correctAnswer) :=
  correct_answer_revealed_iff_completed frQuestion "FRA".toList 0 gerAnswer initLedger
    { is_correct := false, explanation := "Correct answer: France".toList,
      attempts_remaining := 2, correct_answer := none } (by decide)

/- ## C5: gapless attempt numbering -/

/-- The attempt-ledger invariant: attempt numbers (newest first) are the
gapless countdown `n, ..., 1`, the row count never exceeds the cap, and every
row but the newest is incorrect (so no row was accepted after a correct
attempt). -/
def LedgerInv (st : LedgerState) : Prop :=
  st.answers.map (fun a => a.attempt_number) = descNumbers st.answers.length ∧
  st.answers.length ≤ MAX_DAILY_ATTEMPTS ∧
  ∀ a ∈ st.answers.tail, a.is_correct = false

/-- One submission preserves the attempt-ledger invariant. -/
theorem submit_answer_preserves_inv (q : Question) (cc : Str) (today : Int)
    (d : AnswerData) (st : LedgerState) (h : LedgerInv st) :
    LedgerInv (submit_answer q cc today d st).2 := by
  by_cases h1 : st.answers.any (fun a => a.is_correct) = true
  · rw [submit_answer_has_correct q cc today d st h1]
    exact h
  · have h1' : st.answers.any (fun a => a.is_correct) = false := by simpa using h1
    by_cases h2 : MAX_DAILY_ATTEMPTS ≤ st.answers.length
    · rw [submit_answer_exhausted q cc today d st h1' h2]
      exact h
    · have h2' : st.answers.length < MAX_DAILY_ATTEMPTS := by omega
      rw [submit_answer_accepted q cc today d st h1' h2']
      obtain ⟨hmap, hlen, -⟩ := h
      refine ⟨?_, ?_, ?_⟩
      · show (st.answers.length + 1) :: st.answers.map (fun a => a.attempt_number) =
          descNumbers (st.answers.length + 1)
        rw [hmap]
        rfl
      · show st.answers.length + 1 ≤ MAX_DAILY_ATTEMPTS
        omega
      · show ∀ a ∈ st.answers, a.is_correct = false
        intro a ha
        have := List.any_eq_false.mp h1' a ha
        simpa using this

/-- A whole run of submissions preserves the attempt-ledger invariant. -/
theorem run_submits_preserves_inv (q : Question) (cc : Str)
    (inputs : List (Int × AnswerData)) :
    ∀ st : LedgerState, LedgerInv st → LedgerInv (run_submits q cc inputs st) := by
  induction inputs with
  | nil => intro st h; exact h
  | cons hd rest ih =>
      intro st h
      obtain ⟨t, d⟩ := hd
      exact ih _ (submit_answer_preserves_inv q cc t d st h)

/-- C5: every accepted submission records `attemptNumber = prior count + 1`,
and across any sequence of submissions from a fresh ledger the stored attempt
numbers are the gapless sequence `1, 2, ...`, never more rows than the cap of
3 exist, and no row sits above a correct one (every row except the newest is
incorrect). -/
theorem attempt_numbers_gapless_and_capped (q : Question) (cc : Str) :
    (∀ (today : Int) (d : AnswerData) (st : LedgerState) (resp : SubmitResponse),
      (submit_answer q cc today d st).1 = Except.ok resp →
      ∃ row, (submit_answer q cc today d st).2.answers = row :: st.answers ∧
        row.attempt_number = st.answers.length + 1) ∧
    (∀ inputs : List (Int × AnswerData),
      (run_submits q cc inputs initLedger).answers.map (fun a => a.attempt_number) =
        descNumbers (run_submits q cc inputs initLedger).answers.length ∧
      (run_submits q cc inputs initLedger).answers.length ≤ MAX_DAILY_ATTEMPTS ∧
      (∀ a ∈ (run_submits q cc inputs initLedger).answers.tail, a.is_correct = false)) := by
  constructor
  · intro today d st resp hok
    by_cases h1 : st.answers.any (fun a => a.is_correct) = true
    · rw [submit_answer_has_correct q cc today d st h1] at hok
      exact absurd hok (by simp)
    · have h1' : st.answers.any (fun a => a.is_correct) = false := by simpa using h1
      by_cases h2 : MAX_DAILY_ATTEMPTS ≤ st.answers.length
      · rw [submit_answer_exhausted q cc today d st h1' h2] at hok
        exact absurd hok (by simp)
      · have h2' : st.answers.length < MAX_DAILY_ATTEMPTS := by omega
        rw [submit_answer_accepted q cc today d st h1' h2']
        exact ⟨_, rfl, rfl⟩
  · intro inputs
    exact run_submits_preserves_inv q cc inputs initLedger ⟨rfl, by simp [initLedger], by simp [initLedger]⟩

/-- Witness for C5: a first accepted submission gets attempt number 1, and the
scenario run of four incorrect submissions ends with only the three capped
rows. -/
theorem attempt_numbers_gapless_and_capped_witness :
    (submit_answer frQuestion "FRA".toList 0 gerAnswer initLedger).2.answers.length = 1 ∧
    (run_submits frQuestion "FRA".toList
      [(0, gerAnswer), (0, gerAnswer), (0, gerAnswer), (0, gerAnswer)]
      initLedger).answers.length ≤ MAX_DAILY_ATTEMPTS := by
  constructor
  · obtain ⟨row, hrow, hnum⟩ :=
      (attempt_numbers_gapless_and_capped frQuestion "FRA".toList).1 0 gerAnswer initLedger
        { is_correct := false, explanation := "Correct answer: France".toList,
          attempts_remaining := 2, correct_answer := none } (by decide)
    rw [hrow]
    rfl
  · exact ((attempt_numbers_gapless_and_capped frQuestion "FRA".toList).2
      [(0, gerAnswer), (0, gerAnswer), (0, gerAnswer), (0, gerAnswer)]).2.1

/- ## C9: answer judging per format -/

/-- A multiple-choice question carrying a given accepted-answer key. -/
def multipleChoiceQuestion (key : CorrectAnswer) : Question :=
  { category := "capital".toList, format := "multiple_choice".toList,
    questionText := [], correctAnswer := key }

/-- A true/false question carrying a given accepted-answer key. -/
def trueFalseQuestion (key : CorrectAnswer) : Question :=
  { category := "population".toList, format := "true_false".toList,
    questionText := [], correctAnswer := key }

/-- C9: a text-input submission is judged correct iff the lower-cased,
stripped text equals the lower-cased primary answer or lies in the lower-cased
alternates; a multiple-choice submission iff the selected option equals the
stored correct option exactly; a true/false submission iff the submitted
boolean equals the stored one; any unknown format is judged incorrect with the
explanatory message rather than raising.  The spec's running example holds:
against primary answer France with alternates `[fra]`, the submissions
`france`, `FRANCE` and ` France ` are all correct and `Germany` is not. -/
theorem validate_answer_judges_formats (key : CorrectAnswer) (d : AnswerData) :
    ((validate_answer (textInputQuestion key) d).1 = true ↔
      (pyStrip (pyLower d.text) = pyLower key.answer ∨
       pyStrip (pyLower d.text) ∈ key.alternates.map pyLower)) ∧
    ((validate_answer (multipleChoiceQuestion key) d).1 = true ↔
      d.selectedOption = some key.correctOption) ∧
    ((validate_answer (trueFalseQuestion key) d).1 = true ↔
      d.answerBool = some key.answerBool) ∧
    (∀ fmt : Str, fmt ≠ "text_input".toList → fmt ≠ "multiple_choice".toList →
      fmt ≠ "true_false".toList →
      validate_answer
          { category := [], format := fmt, questionText := [], correctAnswer := key } d =
        (false, "Unknown question format".toList)) ∧
    (validate_answer frQuestion { text := "france".toList }).1 = true ∧
    (validate_answer frQuestion { text := "FRANCE".toList }).1 = true ∧
    (validate_answer frQuestion { text := " France ".toList }).1 = true ∧
    (validate_answer frQuestion { text := "Germany".toList }).1 = false := by
  refine ⟨?_, ?_, ?_, ?_, by decide, by decide, by decide, by decide⟩
  · simp [validate_answer, validate_text_input, textInputQuestion]
  · cases hd : d.selectedOption with
    | none => simp [validate_answer, validate_multiple_choice, multipleChoiceQuestion, hd]
    | some o => simp [validate_answer, validate_multiple_choice, multipleChoiceQuestion, hd]
  · cases hd : d.answerBool with
    | none => simp [validate_answer, validate_true_false, trueFalseQuestion, hd]
    | some b => simp [validate_answer, validate_true_false, trueFalseQuestion, hd]
  · intro fmt h1 h2 h3
    simp only [validate_answer, if_neg h1, if_neg h2, if_neg h3]

/-- Witness for C9: an unknown format (`map_location`) is judged incorrect
with the explanatory message. -/
theorem validate_answer_judges_formats_witness :
    validate_answer
        { category := [], format := "map_location".toList, questionText := [],
          correctAnswer := franceKey } gerAnswer =
      (false, "Unknown question format".toList) :=
  (validate_answer_judges_formats franceKey gerAnswer).2.2.2.1 "map_location".toList
    (by decide) (by decide) (by decide)

/- ## C10: the explanation field discloses the answer -/

/-- C10: every submission that passes both guards against a text-input
question (the only kind the daily challenge creates) gets a successful
response whose `explanation` is literally `"Correct answer: <primary name>"` —
including an incorrect submission with attempts still remaining, where the
`correct_answer` field itself is withheld (`none`). -/
theorem response_explanation_discloses_answer (key : CorrectAnswer) (cc : Str)
    (today : Int) (d : AnswerData) (st : LedgerState)
    (h1 : st.answers.any (fun a => a.is_correct) = false)
    (h2 : st.answers.length < MAX_DAILY_ATTEMPTS) :
    (submit_answer (textInputQuestion key) cc today d st).1 =
      Except.ok
        { is_correct := (validate_answer (textInputQuestion key) d).1,
          explanation := "Correct answer: ".toList ++ key.answer,
          attempts_remaining := MAX_DAILY_ATTEMPTS - (st.answers.length + 1),
          correct_answer :=
            if (validate_answer (textInputQuestion key) d).1 ||
               decide (MAX_DAILY_ATTEMPTS - (st.answers.length + 1) = 0)
            then some (textInputQuestion key).correctAnswer else none } := by
  rw [submit_answer_accepted (textInputQuestion key) cc today d st h1 h2]
  have hexp : (validate_answer (textInputQuestion key) d).2 =
      "Correct answer: ".toList ++ key.answer := by
    simp [validate_answer, validate_text_input, textInputQuestion]
  rw [hexp]

/-- Witness for C10: an incorrect first submission against the France question
is accepted, keeps two attempts, withholds `correct_answer`, and still carries
`"Correct answer: France"` in its explanation. -/
theorem response_explanation_discloses_answer_witness :
    (submit_answer (textInputQuestion franceKey) "FRA".toList 0 gerAnswer initLedger).1 =
      Except.ok
        { is_correct := (validate_answer (textInputQuestion franceKey) gerAnswer).1,
          explanation := "Correct answer: ".toList ++ franceKey.answer,
          attempts_remaining := MAX_DAILY_ATTEMPTS - (initLedger.answers.length + 1),
          correct_answer :=
            if (validate_answer (textInputQuestion franceKey) gerAnswer).1 ||
               decide (MAX_DAILY_ATTEMPTS - (initLedger.answers.length + 1) = 0)
            then some (textInputQuestion franceKey).correctAnswer else none } :=
  response_explanation_discloses_answer franceKey "FRA".toList 0 gerAnswer initLedger
    (by decide) (by decide)

/- ## C6: streak arithmetic -/

/-- Coupling between the source's `UserStats` (which only has
`last_guess_date`) and the spec's streak state (which tracks
`lastCorrectDate`): all observable counters agree, the missed sets agree, and
whenever the streak is live the two date fields coincide (a live streak means
the latest recorded outcome was correct, so the last guess was the last
correct guess). -/
def StreakRel (c : UserStats) (a : SpecStreakState) : Prop :=
  c.current_streak = a.currentStreak ∧
  c.longest_streak = a.longestStreak ∧
  c.total_correct = a.totalCorrect ∧
  c.incorrect_countries = a.missedItemCodes ∧
  (0 < c.current_streak → c.last_guess_date = a.lastCorrectDate)

/-- One recorded outcome preserves the coupling. -/
theorem streakRel_step (b : Bool) (date : Int) (code : Str) (c : UserStats)
    (a : SpecStreakState) (h : StreakRel c a) :
    StreakRel (record_outcome b date code c) (specStreakRecord b date code a) := by
  obtain ⟨e1, e2, e3, e4, e5⟩ := h
  cases b with
  | false =>
      by_cases hmem : code ∈ c.incorrect_countries
      · have hmem' : code ∈ a.missedItemCodes := e4 ▸ hmem
        refine ⟨?_, ?_, ?_, ?_, ?_⟩ <;>
          simp [record_outcome, specStreakRecord, add_incorrect_country,
            update_daily_streak, hmem, hmem', e1, e2, e3, e4]
      · have hmem' : code ∉ a.missedItemCodes := fun hx => hmem (e4 ▸ hx)
        refine ⟨?_, ?_, ?_, ?_, ?_⟩ <;>
          simp [record_outcome, specStreakRecord, add_incorrect_country,
            update_daily_streak, hmem, hmem', e1, e2, e3, e4]
  | true =>
      by_cases hcur : 0 < c.current_streak
      · have hdate := e5 hcur
        by_cases hc : a.lastCorrectDate = some (date - 1)
        · refine ⟨?_, ?_, ?_, ?_, ?_⟩ <;>
            simp [record_outcome, specStreakRecord, update_daily_streak,
              hdate, hc, e1, e2, e3, e4]
        · refine ⟨?_, ?_, ?_, ?_, ?_⟩ <;>
            simp [record_outcome, specStreakRecord, update_daily_streak,
              hdate, hc, e1, e2, e3, e4]
      · have hz : c.current_streak = 0 := by omega
        have hza : a.currentStreak = 0 := by omega
        by_cases hcc : c.last_guess_date = some (date - 1) <;>
          by_cases hca : a.lastCorrectDate = some (date - 1) <;>
          refine ⟨?_, ?_, ?_, ?_, ?_⟩ <;>
            simp [record_outcome, specStreakRecord, update_daily_streak,
              hcc, hca, hz, hza, e2, e3, e4]

/-- A whole run of outcomes preserves the coupling. -/
theorem streakRel_run (tr : List (Bool × Int × Str)) :
    ∀ (c : UserStats) (a : SpecStreakState), StreakRel c a →
      StreakRel (runStreakCode tr c) (runStreakSpec tr a) := by
  induction tr with
  | nil => intro c a h; exact h
  | cons hd rest ih =>
      intro c a h
      obtain ⟨b, date, code⟩ := hd
      exact ih _ _ (streakRel_step b date code c a h)

/-- C6: the source's streak bookkeeping realizes the claimed `record`
semantics.  (1) For every sequence of completed-challenge outcomes from fresh
state, `currentStreak`, `longestStreak`, `totalCorrect` and the missed-item
set all equal the values computed by a tracker that follows the claim
literally (incrementing exactly when `lastCorrectDate = date - 1 day`, else
restarting at 1, as `specStreakRecord` does) — the source keys on
`last_guess_date`, which is observationally equivalent.  (2) An
incorrect/exhausted outcome zeroes `currentStreak` and adds the item's code
with set semantics; adding an already-present code leaves the list unchanged.
(3) A correct outcome sets `longestStreak` to the max of itself and the new
streak and increments `totalCorrect`. -/
theorem streak_tracking_matches_spec :
    (∀ tr : List (Bool × Int × Str),
      (runStreakCode tr initUserStats).current_streak =
        (runStreakSpec tr initSpecStreak).currentStreak ∧
      (runStreakCode tr initUserStats).longest_streak =
        (runStreakSpec tr initSpecStreak).longestStreak ∧
      (runStreakCode tr initUserStats).total_correct =
        (runStreakSpec tr initSpecStreak).totalCorrect ∧
      (runStreakCode tr initUserStats).incorrect_countries =
        (runStreakSpec tr initSpecStreak).missedItemCodes) ∧
    (∀ (s : UserStats) (date : Int) (code : Str),
      (record_outcome false date code s).current_streak = 0 ∧
      (∀ x : Str, x ∈ (record_outcome false date code s).incorrect_countries ↔
        (x ∈ s.incorrect_countries ∨ x = code)) ∧
      (code ∈ s.incorrect_countries →
        (record_outcome false date code s).incorrect_countries = s.incorrect_countries)) ∧
    (∀ (s : UserStats) (date : Int) (code : Str),
      (record_outcome true date code s).total_correct = s.total_correct + 1 ∧
      (record_outcome true date code s).longest_streak =
        max s.longest_streak (record_outcome true date code s).current_streak) := by
  refine ⟨?_, ?_, ?_⟩
  · intro tr
    have h := streakRel_run tr initUserStats initSpecStreak
      ⟨rfl, rfl, rfl, rfl, by intro hx; simp [initUserStats] at hx⟩
    exact ⟨h.1, h.2.1, h.2.2.1, h.2.2.2.1⟩
  · intro s date code
    by_cases hmem : code ∈ s.incorrect_countries
    · refine ⟨?_, ?_, ?_⟩
      · simp [record_outcome, add_incorrect_country, update_daily_streak, hmem]
      · intro x
        simp only [record_outcome, add_incorrect_country, update_daily_streak,
          Bool.false_eq_true, if_false]
        simp only [hmem, if_true]
        constructor
        · exact fun hx => Or.inl hx
        · rintro (hx | hx)
          · exact hx
          · exact hx ▸ hmem
      · intro hx
        simp [record_outcome, add_incorrect_country, update_daily_streak, hmem]
    · refine ⟨?_, ?_, ?_⟩
      · simp [record_outcome, add_incorrect_country, update_daily_streak, hmem]
      · intro x
        simp [record_outcome, add_incorrect_country, update_daily_streak, hmem]
      · intro hx
        exact absurd hx hmem
  · intro s date code
    by_cases hc : s.last_guess_date = some (date - 1) <;>
      constructor <;> simp [record_outcome, update_daily_streak, hc]

/-- Witness for C6 (for the conjunct with a hypothesis): re-recording the
already-missed code `FRA` leaves the missed list unchanged. -/
theorem streak_tracking_matches_spec_witness :
    (record_outcome false 1 "FRA".toList
        { total_correct := 0, current_streak := 0, longest_streak := 0,
          last_guess_date := some 0,
          incorrect_countries := ["FRA".toList] }).incorrect_countries =
      ["FRA".toList] :=
  ((streak_tracking_matches_spec.2.1
      { total_correct := 0, current_streak := 0, longest_streak := 0,
        last_guess_date := some 0, incorrect_countries := ["FRA".toList] }
      1 "FRA".toList).2.2) (by decide)

end FlagApp
